import Mathlib

/-!
Shallow embedding of the core query-execution layer of PoiScript/sqlx:
the Postgres cursor protocol driver and statement cache
(`sqlx-core/src/postgres/cursor.rs`), the composite/record codec
(`sqlx-core/src/postgres/types/record.rs`), the MySQL row model
(`sqlx-core/src/mysql/row.rs`) and the SQLite `Option` decoder
(`sqlx-core/src/sqlite/types/mod.rs`), together with theorems settling
the spec claims about them.

Conventions: Rust `&mut` state is explicit state passing; the network
stream of a connection is the list of protocol messages the backend will
send (reading from an exhausted list is modelled as an I/O error);
machine integers are `Nat` with explicit `% 2 ^ w` where overflow
matters; Rust panics (out-of-bounds slicing, `usize` underflow) are a
distinct `panicked` outcome, separate from returned errors.
-/

namespace Sqlx

/-- Association-list insert with `HashMap::insert` semantics: replace the
value when the key is present, otherwise append. -/
def alInsert {α β : Type} [DecidableEq α] : List (α × β) → α → β → List (α × β)
  | [], k, v => [(k, v)]
  | (k', v') :: rest, k, v =>
    if k' = k then (k, v) :: rest else (k', v') :: alInsert rest k v

/-- Association-list lookup, `HashMap::get` / `contains_key`. -/
def alLookup {α β : Type} [DecidableEq α] : List (α × β) → α → Option β
  | [], _ => none
  | (k', v') :: rest, k => if k' = k then some v' else alLookup rest k

/-- Per-column wire format (`postgres::protocol::TypeFormat`). -/
inductive TypeFormat where
  | text
  | binary
  deriving DecidableEq, Repr

/-- One field of a `RowDescription` message: an optional column name and
the declared wire format. -/
structure Field where
  name : Option String
  type_format : TypeFormat
  deriving DecidableEq, Repr

/-- Raw data of one `DataRow` message: per column, `none` for SQL NULL or
the raw bytes. -/
abbrev RowData := List (Option (List Nat))

/-- Backend statement identifier (`postgres::protocol::StatementId`). -/
abbrev StatementId := Nat

/-- The subset of inbound Postgres protocol messages the cursor consumes;
every other tag is collapsed into `other`. -/
inductive Message where
  | parseComplete
  | bindComplete
  | rowDescription (fields : List Field)
  | noData
  | commandComplete
  | dataRow (data : RowData)
  | other (tag : Nat)
  deriving DecidableEq, Repr

/-- Errors surfaced by this layer (`crate::Error`): protocol errors,
reading from an exhausted stream, decode errors. `cachePanic` marks the
(unreachable) panicking index into the statement cache. -/
inductive SqlxError where
  | protocolErr (msg : String)
  | ioEof
  | decodeErr (msg : String)
  | unexpectedNull
  | invalidUtf8
  | cachePanic
  deriving DecidableEq, Repr

/-- Column map: name to index, shared across all rows of one cursor. -/
abbrev ColumnMap := List (String × Nat)

/-- The connection state the cursor interacts with: the inbound message
stream plus the two per-connection statement caches
(`PgConnection::cache_statement_columns` / `cache_statement_formats`). -/
structure PgConnection where
  stream : List Message
  cache_statement_columns : List (StatementId × ColumnMap)
  cache_statement_formats : List (StatementId × List TypeFormat)
  deriving DecidableEq, Repr

/-- Argument buffers are opaque to the cursor; only their presence matters. -/
abbrev PgArguments := List (Option (List Nat))

/-- A row produced by the Postgres cursor (`PgRow`): the shared column
map, the shared format list and this row's raw data. The Rust connection
borrow has no content at this level of the model. -/
structure PgRow where
  columns : ColumnMap
  formats : List TypeFormat
  data : RowData
  deriving DecidableEq, Repr

/-- The Postgres cursor (`PgCursor`): the pending query, consumed at most
once, and the published column metadata. -/
structure PgCursor where
  query : Option (String × Option PgArguments)
  columns : ColumnMap
  formats : List TypeFormat
  deriving DecidableEq, Repr

/-- Outcome of one `next()` call: a row, end-of-stream, or a failure. -/
inductive NextOutcome where
  | row (r : PgRow)
  | done
  | err (e : SqlxError)
  deriving DecidableEq, Repr

/-- Modelled from the spec: the Executor collaborator's
`run(query, params) -> optional statement id` (its implementation is
outside this layer). It may also advance the connection. -/
abbrev RunFn :=
  String → Option PgArguments → PgConnection →
    Except SqlxError (Option StatementId × PgConnection)

/-- The message loop of `describe`: skip `ParseComplete`/`BindComplete`,
stop at `RowDescription` (its fields) or `NoData` (no description), fail
on anything else. Returns the unconsumed rest of the stream. -/
def describeLoop : List Message → Except SqlxError (Option (List Field)) × List Message
  | [] => (.error .ioEof, [])
  | message :: rest =>
    match message with
    | .parseComplete => describeLoop rest
    | .bindComplete => describeLoop rest
    | .rowDescription fields => (.ok (some fields), rest)
    | .noData => (.ok none, rest)
    | _ => (.error (.protocolErr "next/describe: unexpected message"), rest)

/-- The field iteration of `describe`: walk the fields in order, insert
name to index for named fields only, push every field's wire format. -/
def buildMetaAux : Nat → List Field → ColumnMap → List TypeFormat → ColumnMap × List TypeFormat
  | _, [], columns, formats => (columns, formats)
  | index, field :: rest, columns, formats =>
    let columns :=
      match field.name with
      | some name => alInsert columns name index
      | none => columns
    buildMetaAux (index + 1) rest columns (formats ++ [field.type_format])

/-- Build the `(column map, format list)` pair from a row description. -/
def buildMeta (fields : List Field) : ColumnMap × List TypeFormat :=
  buildMetaAux 0 fields [] []

/-- `describe` from `postgres/cursor.rs`: run the describe message loop,
then build the metadata (empty on `NoData`). -/
def describe (conn : PgConnection) :
    Except SqlxError (ColumnMap × List TypeFormat) × PgConnection :=
  match describeLoop conn.stream with
  | (.error e, rest) => (.error e, { conn with stream := rest })
  | (.ok description, rest) =>
    let (columns, formats) :=
      match description with
      | some fields => buildMeta fields
      | none => ([], [])
    (.ok (columns, formats), { conn with stream := rest })

/-- The trailing cache indexing of `get_or_describe`
(`conn.cache_statement_columns[&statement]`): a Rust panic when absent,
modelled as the unreachable `cachePanic` error. -/
def readCache (conn : PgConnection) (statement : StatementId) :
    Except SqlxError (ColumnMap × List TypeFormat) × PgConnection :=
  match alLookup conn.cache_statement_columns statement,
      alLookup conn.cache_statement_formats statement with
  | some columns, some formats => (.ok (columns, formats), conn)
  | _, _ => (.error .cachePanic, conn)

/-- `get_or_describe` from `postgres/cursor.rs`: when either cache lacks
the statement, describe and insert into both caches; then return the
cached pair. -/
def get_or_describe (conn : PgConnection) (statement : StatementId) :
    Except SqlxError (ColumnMap × List TypeFormat) × PgConnection :=
  if (alLookup conn.cache_statement_columns statement).isNone
      || (alLookup conn.cache_statement_formats statement).isNone then
    match describe conn with
    | (.error e, conn) => (.error e, conn)
    | (.ok (columns, formats), conn) =>
      readCache
        { conn with
          cache_statement_columns :=
            alInsert conn.cache_statement_columns statement columns,
          cache_statement_formats :=
            alInsert conn.cache_statement_formats statement formats }
        statement
  else
    readCache conn statement

/-- The steady-state message loop of `next`: skip `ParseComplete` and
`BindComplete`, end the stream on `CommandComplete`, produce a row
carrying the cursor's shared metadata on `DataRow`, fail on anything
else. Returns the unconsumed rest of the stream. -/
def streamLoop (cursor : PgCursor) : List Message → NextOutcome × List Message
  | [] => (.err .ioEof, [])
  | message :: rest =>
    match message with
    | .parseComplete => streamLoop cursor rest
    | .bindComplete => streamLoop cursor rest
    | .commandComplete => (.done, rest)
    | .dataRow data =>
      (.row { columns := cursor.columns, formats := cursor.formats, data := data }, rest)
    | _ => (.err (.protocolErr "next: unexpected message"), rest)

/-- `next` from `postgres/cursor.rs`: take the pending query (so it runs
at most once), run it through the executor, settle the column metadata
via the cache (prepared path) or a fresh describe (simple path), then
enter the steady-state message loop. Returns the outcome together with
the updated cursor and connection. -/
def next (runFn : RunFn) (cursor : PgCursor) (conn : PgConnection) :
    NextOutcome × PgCursor × PgConnection :=
  match cursor.query with
  | some (q, args) =>
    let cursor := { cursor with query := none }
    match runFn q args conn with
    | .error e => (.err e, cursor, conn)
    | .ok (statement?, conn) =>
      let described :=
        match statement? with
        | some statement => get_or_describe conn statement
        | none => describe conn
      match described with
      | (.error e, conn) => (.err e, cursor, conn)
      | (.ok (columns, formats), conn) =>
        let cursor := { cursor with columns := columns, formats := formats }
        let (outcome, rest) := streamLoop cursor conn.stream
        (outcome, cursor, { conn with stream := rest })
  | none =>
    let (outcome, rest) := streamLoop cursor conn.stream
    (outcome, cursor, { conn with stream := rest })

/-! ## Composite/record codec (`postgres/types/record.rs`)

Byte buffers are `List Nat`; `beBytes4` is `u32::to_be_bytes`. Rust
panics (out-of-bounds slicing, `usize` underflow) become the `panicked`
outcome of `DecodeOutcome`, distinct from a returned decode error. -/

/-- `u32::to_be_bytes` (wrapping any value of the `as u32` cast). -/
def beBytes4 (n : Nat) : List Nat :=
  [n / 2 ^ 24 % 256, n / 2 ^ 16 % 256, n / 2 ^ 8 % 256, n % 256]

/-- `BigEndian::read_u32` via `Buf::get_u32`: `none` when fewer than four
bytes remain (the source returns an error there). -/
def readBE4 : List Nat → Option (Nat × List Nat)
  | b0 :: b1 :: b2 :: b3 :: rest =>
    some (b0 * 2 ^ 24 + b1 * 2 ^ 16 + b2 * 2 ^ 8 + b3, rest)
  | _ => none

/-- `buf[pos..pos + 4].copy_from_slice(bytes)`: the back-patching write. -/
def patch4 (buf : List Nat) (pos : Nat) (bytes : List Nat) : List Nat :=
  buf.take pos ++ bytes ++ buf.drop (pos + 4)

/-- `PgRecordEncoder`: the buffer, the offset just past the reserved
field-count header (`beg`), and the running field count (`num`). -/
structure PgRecordEncoder where
  buf : List Nat
  beg : Nat
  num : Nat
  deriving DecidableEq, Repr

/-- `PgRecordEncoder::new`: reserve four zero bytes for the field count. -/
def PgRecordEncoder.new (buf : List Nat) : PgRecordEncoder :=
  let buf := buf ++ beBytes4 0
  { beg := buf.length, buf := buf, num := 0 }

/-- `PgRecordEncoder::encode` for a field whose type identifier is `oid`
and whose `Encode` implementation appends `payload`: write the oid, four
zero bytes, the payload, then back-patch the length with the actual
encoded byte count and bump the field count. -/
def PgRecordEncoder.encode (e : PgRecordEncoder) (oid : Nat) (payload : List Nat) :
    PgRecordEncoder :=
  let buf := e.buf ++ beBytes4 oid
  let buf := buf ++ [0, 0, 0, 0]
  let start := buf.length
  let buf := buf ++ payload
  let size := buf.length - start
  let buf := patch4 buf (start - 4) (beBytes4 size)
  { e with buf := buf, num := e.num + 1 }

/-- `PgRecordEncoder::finish`: back-patch the field count header. -/
def PgRecordEncoder.finish (e : PgRecordEncoder) : List Nat :=
  patch4 e.buf (e.beg - 4) (beBytes4 e.num)

/-- Encode a whole record (the tuple `Encode` impl): `new`, then `encode`
each `(oid, payload)` field, then `finish`. -/
def encodeRecord (buf : List Nat) (fields : List (Nat × List Nat)) : List Nat :=
  (fields.foldl (fun e f => e.encode f.1 f.2) (PgRecordEncoder.new buf)).finish

/-- The flat layout of the encoded fields: per field a 4-byte type
identifier, a 4-byte length, then the payload. -/
def encodeFields : List (Nat × List Nat) → List Nat
  | [] => []
  | (oid, payload) :: rest =>
    beBytes4 oid ++ beBytes4 payload.length ++ payload ++ encodeFields rest

/-- Outcome of running decoder code: a value, a returned error, or a Rust
panic (out-of-bounds slice / `usize` underflow). -/
inductive DecodeOutcome (α : Type) where
  | ok (a : α)
  | err (e : SqlxError)
  | panicked
  deriving DecidableEq, Repr

/-- `PgRecordDecoder::new` on `PgValue::Binary`: read (and discard) the
leading field count; fewer than four bytes is a decode failure. -/
def PgRecordDecoder.newBinary (buf : List Nat) : DecodeOutcome (List Nat) :=
  match readBE4 buf with
  | some (_expected_len, rest) => .ok rest
  | none => .err .ioEof

/-- `PgRecordDecoder::new` on `PgValue::Text`: `&s[1..s.len() - 1]`
removes the outer parentheses; on a string of fewer than two characters
this slice (or the `usize` subtraction) panics. Characters stand for the
source's bytes; the positions coincide on ASCII input. -/
def PgRecordDecoder.newText (s : List Char) : DecodeOutcome (List Char) :=
  if s.length < 2 then .panicked
  else .ok ((s.drop 1).dropLast)

/-- One binary field of `PgRecordDecoder::decode`, up to the raw optional
payload handed to `T::decode`: read the oid, read the signed length,
treat a negative length as NULL, otherwise slice exactly `len` bytes
(`&buf[..len]` panics when fewer remain). -/
def decodeFieldRaw (buf : List Nat) : DecodeOutcome (Option (List Nat) × List Nat) :=
  match readBE4 buf with
  | none => .err .ioEof
  | some (_oid, buf) =>
    match readBE4 buf with
    | none => .err .ioEof
    | some (lenU, buf) =>
      let len : Int := if lenU < 2 ^ 31 then (lenU : Int) else (lenU : Int) - 2 ^ 32
      if len < 0 then .ok (none, buf)
      else if lenU ≤ buf.length then .ok (some (buf.take lenU), buf.drop lenU)
      else .panicked

/-- `PgRecordDecoder::decode` on a binary value with field decoder
`dec` (the `T::decode` of the target type). -/
def decodeBinField {α : Type} (dec : Option (List Nat) → Except SqlxError α)
    (buf : List Nat) : DecodeOutcome (α × List Nat) :=
  match decodeFieldRaw buf with
  | .ok (v, rest) =>
    match dec v with
    | .ok a => .ok (a, rest)
    | .error e => .err e
  | .err e => .err e
  | .panicked => .panicked

/-- `n` successive `decoder.decode()?` calls of the tuple `Decode` impl,
binary mode. -/
def decodeValues {α : Type} (dec : Option (List Nat) → Except SqlxError α) :
    Nat → List Nat → DecodeOutcome (List α × List Nat)
  | 0, buf => .ok ([], buf)
  | n + 1, buf =>
    match decodeBinField dec buf with
    | .ok (v, buf) =>
      match decodeValues dec n buf with
      | .ok (vs, buf) => .ok (v :: vs, buf)
      | .err e => .err e
      | .panicked => .panicked
    | .err e => .err e
    | .panicked => .panicked

/-- The whole binary decode path of the tuple `Decode` impl: strip the
field count, then decode `n` fields (any trailing bytes are ignored, as
in the source). -/
def decodeRecordBin {α : Type} (dec : Option (List Nat) → Except SqlxError α)
    (n : Nat) (buf : List Nat) : DecodeOutcome (List α) :=
  match PgRecordDecoder.newBinary buf with
  | .ok body =>
    match decodeValues dec n body with
    | .ok (vs, _) => .ok vs
    | .err e => .err e
    | .panicked => .panicked
  | .err e => .err e
  | .panicked => .panicked

/-- The character scan of the text arm of `PgRecordDecoder::decode`:
state is (index, in-quotes, seen-a-quote, previous char, previous index).
Returns the source's `index : Option<usize>` break value (`none` marks a
NULL field) together with the seen-a-quote flag. -/
def scanFieldGo : Nat → Bool → Bool → Char → Nat → List Char → Option Nat × Bool
  | _, _, is_quoted, prev_ch, prev_index, [] =>
    (if prev_ch = Char.ofNat 0 then none else some prev_index, is_quoted)
  | index, in_quotes, is_quoted, prev_ch, _, ch :: rest =>
    if ch = ',' && prev_ch = Char.ofNat 0 then (none, is_quoted)
    else if ch = ',' && !in_quotes then (some index, is_quoted)
    else if ch = '"' && in_quotes then
      scanFieldGo (index + 1) false is_quoted ch index rest
    else if ch = '"' && prev_ch = '"' then
      scanFieldGo (index + 1) false is_quoted ch index rest
    else if ch = '"' then
      scanFieldGo (index + 1) true true ch index rest
    else
      scanFieldGo (index + 1) in_quotes is_quoted ch index rest

/-- The text arm of `PgRecordDecoder::decode`, up to the raw optional
slice handed to `T::decode`: scan for the field boundary, slice the field
(dropping a leading quote when the field was quoted), then advance past
the separator — the advance `&s[index.unwrap_or(0) + 1..]` panics when it
overruns the string. -/
def decodeTextField (s : List Char) : DecodeOutcome (Option (List Char) × List Char) :=
  let scanned := scanFieldGo 0 false false (Char.ofNat 0) 0 s
  let value := scanned.1.map (fun i =>
    let t := s.take i
    if scanned.2 then t.drop 1 else t)
  let cut := scanned.1.getD 0 + 1
  if cut ≤ s.length then .ok (value, s.drop cut)
  else .panicked

/-! ## MySQL row model (`mysql/row.rs`) and SQLite `Option` decoder
(`sqlite/types/mod.rs`) -/

/-- `MySqlValue`: the binary/text discriminant on a raw column value. The
text variant holds the raw bytes that passed UTF-8 validation. -/
inductive MySqlValue where
  | binary (buf : List Nat)
  | text (s : List Nat)
  deriving DecidableEq, Repr

/-- `TryFrom<Option<MySqlValue>> for MySqlValue`: an absent (NULL) value
becomes the `UnexpectedNullError` decode error. -/
def mysqlValueTryFrom : Option MySqlValue → Except SqlxError MySqlValue
  | some value => .ok value
  | none => .error .unexpectedNull

/-- Is a continuation byte, `0x80..=0xBF`. -/
def isCont (b : Nat) : Bool := 128 ≤ b && b ≤ 191

/-- Modelled from the spec: `std::str::from_utf8` validation (the claim
only needs which byte sequences are valid UTF-8). Standard table:
ASCII; C2..DF + 1 continuation; E0 A0..BF, E1..EC 80..BF, ED 80..9F,
EE..EF 80..BF + 1 more continuation; F0 90..BF, F1..F3 80..BF,
F4 80..8F + 2 more continuations. -/
def validUtf8 : List Nat → Bool
  | [] => true
  | b :: rest =>
    if b ≤ 127 then validUtf8 rest
    else if 194 ≤ b && b ≤ 223 then
      match rest with
      | c1 :: rest => isCont c1 && validUtf8 rest
      | [] => false
    else if 224 ≤ b && b ≤ 239 then
      match rest with
      | c1 :: c2 :: rest =>
        (if b = 224 then 160 ≤ c1 && c1 ≤ 191
         else if b = 237 then 128 ≤ c1 && c1 ≤ 159
         else isCont c1) && isCont c2 && validUtf8 rest
      | _ => false
    else if 240 ≤ b && b ≤ 244 then
      match rest with
      | c1 :: c2 :: c3 :: rest =>
        (if b = 240 then 144 ≤ c1 && c1 ≤ 191
         else if b = 244 then 128 ≤ c1 && c1 ≤ 143
         else isCont c1) && isCont c2 && isCont c3 && validUtf8 rest
      | _ => false
    else false

/-- `MySqlRow`: the raw protocol row (per column, `none` for NULL), the
shared column map, and the cursor's binary-mode flag. -/
structure MySqlRow where
  row : List (Option (List Nat))
  columns : ColumnMap
  binary : Bool
  deriving DecidableEq, Repr

/-- `MySqlRow::len`. -/
def MySqlRow.len (r : MySqlRow) : Nat := r.row.length

/-- `protocol::Row::get`: the raw bytes of one column, `none` for NULL. -/
def rowGet (row : List (Option (List Nat))) (index : Nat) : Option (List Nat) :=
  (row.get? index).bind (fun c => c)

/-- A column reference: by position or by name. -/
inductive ColumnIdx where
  | pos (i : Nat)
  | name (n : String)
  deriving DecidableEq, Repr

/-- Modelled from the spec: `ColumnIndex::resolve` — a position must be
in range ("column index out of range"), a name is looked up in the shared
column map ("no such column name"). -/
def MySqlRow.resolve (r : MySqlRow) (idx : ColumnIdx) : Except SqlxError Nat :=
  match idx with
  | .pos i =>
    if i < r.row.length then .ok i
    else .error (.decodeErr "column index out of range")
  | .name n =>
    match alLookup r.columns n with
    | some i => .ok i
    | none => .error (.decodeErr "no such column name")

/-- `MySqlRow::get_raw`: resolve the column reference, then a NULL column
is an absent success; a present column is returned unvalidated as
`Binary` in binary mode, and UTF-8-validated as `Text` in text mode
(invalid UTF-8 is a decode error). -/
def MySqlRow.get_raw (r : MySqlRow) (idx : ColumnIdx) :
    Except SqlxError (Option MySqlValue) :=
  match r.resolve idx with
  | .error e => .error e
  | .ok index =>
    match rowGet r.row index with
    | none => .ok none
    | some buf =>
      if r.binary then .ok (some (.binary buf))
      else if validUtf8 buf then .ok (some (.text buf))
      else .error .invalidUtf8

/-- A SQLite value; only NULL-ness matters to the `Option` decoder. -/
inductive SqliteValue where
  | null
  | data (bytes : List Nat)
  deriving DecidableEq, Repr

/-- `SqliteValue::is_null`. -/
def SqliteValue.is_null : SqliteValue → Bool
  | .null => true
  | .data _ => false

/-- `Decode<Sqlite> for Option<T>`: NULL decodes to `none`, otherwise the
inner decoder runs and its value is wrapped in `some`. -/
def sqliteDecodeOption {α : Type} (decT : SqliteValue → Except SqlxError α)
    (value : SqliteValue) : Except SqlxError (Option α) :=
  if value.is_null then .ok none
  else (decT value).map some

/-! ## Basic lemmas -/

/-- Lookup after insert: the inserted key maps to the new value, other
keys are unaffected. -/
theorem alLookup_alInsert {α β : Type} [DecidableEq α]
    (l : List (α × β)) (k k' : α) (v : β) :
    alLookup (alInsert l k v) k' = if k' = k then some v else alLookup l k' := by
  induction l with
  | nil =>
    simp only [alInsert, alLookup]
    by_cases h : k' = k
    · subst h; simp
    · simp [h, Ne.symm h]
  | cons p rest ih =>
    obtain ⟨pk, pv⟩ := p
    simp only [alInsert]
    by_cases hpk : pk = k
    · subst hpk
      simp only [if_pos rfl, alLookup]
      by_cases h : k' = pk
      · subst h; simp
      · simp [h, Ne.symm h]
    · simp only [if_neg hpk, alLookup, ih]
      by_cases h1 : pk = k'
      · subst h1
        simp [hpk]
      · by_cases h2 : k' = k <;> simp [h1, h2, hpk]

/-- `beBytes4` always produces four bytes. -/
theorem beBytes4_length (n : Nat) : (beBytes4 n).length = 4 := rfl

/-- Reading back a big-endian `u32` recovers the value modulo `2 ^ 32`. -/
theorem readBE4_beBytes4 (n : Nat) (rest : List Nat) :
    readBE4 (beBytes4 n ++ rest) = some (n % 2 ^ 32, rest) := by
  simp only [beBytes4, List.cons_append, List.nil_append, readBE4]
  congr 1
  congr 1
  omega

/-- Back-patching four bytes at the start of a reserved 4-byte slot. -/
theorem patch4_append (l₁ mid l₂ bytes : List Nat) (h4 : mid.length = 4) :
    patch4 (l₁ ++ mid ++ l₂) l₁.length bytes = l₁ ++ bytes ++ l₂ := by
  unfold patch4
  have htake : (l₁ ++ mid ++ l₂).take l₁.length = l₁ := by
    rw [List.append_assoc]
    exact List.take_left l₁ (mid ++ l₂)
  have hdrop : (l₁ ++ mid ++ l₂).drop (l₁.length + 4) = l₂ :=
    List.drop_left' (by simp [h4])
  rw [htake, hdrop]

/-- One `encode` call appends the oid, the back-patched length, and the
payload. -/
theorem PgRecordEncoder.encode_buf (e : PgRecordEncoder) (oid : Nat) (payload : List Nat) :
    (e.encode oid payload).buf
      = e.buf ++ beBytes4 oid ++ beBytes4 payload.length ++ payload := by
  simp only [PgRecordEncoder.encode]
  have h1 : (e.buf ++ beBytes4 oid ++ [0, 0, 0, 0] ++ payload).length
      - (e.buf ++ beBytes4 oid ++ [0, 0, 0, 0]).length = payload.length := by
    simp only [List.length_append, beBytes4_length, List.length_cons, List.length_nil]
    omega
  have h2 : (e.buf ++ beBytes4 oid ++ [0, 0, 0, 0]).length - 4
      = (e.buf ++ beBytes4 oid).length := by
    simp only [List.length_append, beBytes4_length, List.length_cons, List.length_nil]
    omega
  rw [h1, h2]
  exact patch4_append (e.buf ++ beBytes4 oid) [0, 0, 0, 0] payload
    (beBytes4 payload.length) rfl

/-- `encode` leaves `beg` alone and bumps `num`. -/
theorem PgRecordEncoder.encode_beg (e : PgRecordEncoder) (oid : Nat) (payload : List Nat) :
    (e.encode oid payload).beg = e.beg := rfl

/-- `encode` bumps the running field count. -/
theorem PgRecordEncoder.encode_num (e : PgRecordEncoder) (oid : Nat) (payload : List Nat) :
    (e.encode oid payload).num = e.num + 1 := rfl

/-- Folding `encode` over a field list appends the flat field layout. -/
theorem foldl_encode_spec (fields : List (Nat × List Nat)) (e : PgRecordEncoder) :
    (fields.foldl (fun acc f => acc.encode f.1 f.2) e).buf = e.buf ++ encodeFields fields ∧
    (fields.foldl (fun acc f => acc.encode f.1 f.2) e).beg = e.beg ∧
    (fields.foldl (fun acc f => acc.encode f.1 f.2) e).num = e.num + fields.length := by
  induction fields generalizing e with
  | nil => simp [encodeFields]
  | cons f fs ih =>
    obtain ⟨oid, payload⟩ := f
    obtain ⟨hb, hg, hn⟩ := ih (e.encode oid payload)
    refine ⟨?_, ?_, ?_⟩
    · rw [List.foldl_cons, hb, PgRecordEncoder.encode_buf]
      simp [encodeFields, List.append_assoc]
    · rw [List.foldl_cons, hg, PgRecordEncoder.encode_beg]
    · rw [List.foldl_cons, hn, PgRecordEncoder.encode_num]
      simp [Nat.add_assoc, Nat.add_comm 1]

/-- The encoded record is the field count followed by the flat field
layout: the back-patching discipline of the source realizes exactly the
documented framing. -/
theorem encodeRecord_spec (buf0 : List Nat) (fields : List (Nat × List Nat)) :
    encodeRecord buf0 fields
      = buf0 ++ beBytes4 fields.length ++ encodeFields fields := by
  obtain ⟨hb, hg, hn⟩ := foldl_encode_spec fields (PgRecordEncoder.new buf0)
  unfold encodeRecord PgRecordEncoder.finish
  rw [hb, hg, hn]
  have hbuf : (PgRecordEncoder.new buf0).buf = buf0 ++ beBytes4 0 := rfl
  have hbeg : (PgRecordEncoder.new buf0).beg = buf0.length + 4 := by
    show (buf0 ++ beBytes4 0).length = buf0.length + 4
    simp [beBytes4_length]
  have hnum : (PgRecordEncoder.new buf0).num = 0 := rfl
  rw [hbuf, hbeg, hnum]
  have hpos : buf0.length + 4 - 4 = buf0.length := by omega
  rw [hpos, Nat.zero_add]
  exact patch4_append buf0 (beBytes4 0) (encodeFields fields)
    (beBytes4 fields.length) rfl

/-- Decoding one binary field of the encoded layout hands back exactly
the payload and leaves the rest untouched. -/
theorem decodeFieldRaw_encoded (oid : Nat) (payload rest : List Nat)
    (h : payload.length < 2 ^ 31) :
    decodeFieldRaw (beBytes4 oid ++ (beBytes4 payload.length ++ (payload ++ rest)))
      = .ok (some payload, rest) := by
  have hmod : payload.length % 2 ^ 32 = payload.length :=
    Nat.mod_eq_of_lt (by omega)
  simp only [decodeFieldRaw, readBE4_beBytes4, hmod]
  rw [if_pos h]
  have hnonneg : ¬((payload.length : Int) < 0) := by
    simp
  rw [if_neg hnonneg]
  have hle : payload.length ≤ (payload ++ rest).length := by
    simp
  rw [if_pos hle]
  rw [List.take_left, List.drop_left]

/-- Decoding `n` fields of the encoded layout with an inverse per-field
decoder recovers the original values. -/
theorem decodeValues_encodeFields {α : Type} (enc : α → List Nat)
    (dec : Option (List Nat) → Except SqlxError α)
    (hdec : ∀ v, dec (some (enc v)) = .ok v)
    (fields : List (Nat × α))
    (hlen : ∀ f ∈ fields, (enc f.2).length < 2 ^ 31) (rest : List Nat) :
    decodeValues dec fields.length
        (encodeFields (fields.map (fun f => (f.1, enc f.2))) ++ rest)
      = .ok (fields.map (fun f => f.2), rest) := by
  induction fields with
  | nil => simp [encodeFields, decodeValues]
  | cons f fs ih =>
    obtain ⟨oid, v⟩ := f
    have hfield : decodeFieldRaw
        (encodeFields (((oid, v) :: fs).map (fun f => (f.1, enc f.2))) ++ rest)
        = .ok (some (enc v), encodeFields (fs.map (fun f => (f.1, enc f.2))) ++ rest) := by
      have := decodeFieldRaw_encoded oid (enc v)
        (encodeFields (fs.map (fun f => (f.1, enc f.2))) ++ rest)
        (hlen (oid, v) (by simp))
      simpa [encodeFields, List.append_assoc] using this
    have hrest := ih (fun f hf => hlen f (List.mem_cons_of_mem _ hf))
    simp only [List.map_cons, List.length_cons] at hfield ⊢
    rw [decodeValues, decodeBinField, hfield]
    simp only [hdec, hrest, List.map_cons]

/-! ## Claim theorems: composite codec and NULL dispatch -/

/-- Claim C4: composite codec round-trip. Encoding any list of field
values (field count header, then per field a 4-byte type identifier, a
back-patched 4-byte length and the payload) and then decoding the
resulting bytes in binary mode with an inverse per-field decoder
reproduces the original field values exactly. -/
theorem record_binary_roundtrip {α : Type} (enc : α → List Nat)
    (dec : Option (List Nat) → Except SqlxError α)
    (hdec : ∀ v, dec (some (enc v)) = .ok v)
    (fields : List (Nat × α))
    (hlen : ∀ f ∈ fields, (enc f.2).length < 2 ^ 31) :
    encodeRecord [] (fields.map (fun f => (f.1, enc f.2)))
      = beBytes4 fields.length ++ encodeFields (fields.map (fun f => (f.1, enc f.2)))
    ∧ decodeRecordBin dec fields.length
        (encodeRecord [] (fields.map (fun f => (f.1, enc f.2))))
      = .ok (fields.map (fun f => f.2)) := by
  have he := encodeRecord_spec [] (fields.map (fun f => (f.1, enc f.2)))
  constructor
  · simpa using he
  · rw [he]
    simp only [List.nil_append, List.length_map]
    unfold decodeRecordBin PgRecordDecoder.newBinary
    rw [readBE4_beBytes4]
    have hv := decodeValues_encodeFields enc dec hdec fields hlen []
    simp only [List.append_nil] at hv
    simp [hv]

/-- Claim C4 witness: a concrete two-field record round-trips. -/
theorem record_binary_roundtrip_witness :
    decodeRecordBin (fun o =>
        match o with
        | some l => Except.ok l
        | none => Except.error SqlxError.unexpectedNull)
      2 (encodeRecord [] [(23, [1, 2]), (25, [])])
      = DecodeOutcome.ok [[1, 2], []] :=
  (record_binary_roundtrip (fun v => v)
      (fun o =>
        match o with
        | some l => Except.ok l
        | none => Except.error SqlxError.unexpectedNull)
      (fun _ => rfl) [(23, [1, 2]), (25, [])]
      (by decide)).2

/-- Claim C5: an absent (NULL) raw value decodes into a non-optional
target as the "unexpected null" error (MySQL `TryFrom`), into an
explicitly optional target as an absent success (SQLite
`Decode for Option`), and in the binary composite decoder a field length
of `-1` (`0xFFFFFFFF`) is treated as NULL and dispatched to the field
decoder the same way. -/
theorem null_decode_dispatch {α : Type}
    (decT : SqliteValue → Except SqlxError α)
    (dec : Option (List Nat) → Except SqlxError α)
    (v : SqliteValue) (oid : Nat) (rest : List Nat)
    (hv : v.is_null = true) :
    mysqlValueTryFrom none = .error .unexpectedNull ∧
    sqliteDecodeOption decT v = .ok none ∧
    decodeFieldRaw (beBytes4 oid ++ (beBytes4 (2 ^ 32 - 1) ++ rest)) = .ok (none, rest) ∧
    decodeBinField dec (beBytes4 oid ++ (beBytes4 (2 ^ 32 - 1) ++ rest))
      = (match dec none with
         | .ok a => .ok (a, rest)
         | .error e => .err e) := by
  have hnull : decodeFieldRaw (beBytes4 oid ++ (beBytes4 (2 ^ 32 - 1) ++ rest))
      = .ok (none, rest) := by
    have hmod : (2 ^ 32 - 1) % 2 ^ 32 = 2 ^ 32 - 1 := by norm_num
    simp only [decodeFieldRaw, readBE4_beBytes4, hmod]
    have h31 : ¬((2 ^ 32 - 1 : Nat) < 2 ^ 31) := by norm_num
    rw [if_neg h31]
    rw [if_pos (show ((2 ^ 32 - 1 : Nat) : Int) - 2 ^ 32 < 0 by push_cast)]
  refine ⟨rfl, ?_, hnull, ?_⟩
  · simp [sqliteDecodeOption, hv]
  · rw [decodeBinField, hnull]

/-- Claim C5 witness: concrete NULL dispatch for all three code paths. -/
theorem null_decode_dispatch_witness :
    sqliteDecodeOption (fun _ => Except.ok ()) SqliteValue.null = Except.ok none ∧
    decodeFieldRaw (beBytes4 17 ++ (beBytes4 (2 ^ 32 - 1) ++ [5]))
      = DecodeOutcome.ok (none, [5]) := by
  have h := null_decode_dispatch (fun _ => Except.ok ())
      (fun _ => Except.ok ()) SqliteValue.null 17 [5] rfl
  exact ⟨h.2.1, h.2.2.1⟩

/-- Claim C9 evidence: on malformed composite input the decoder does not
always return a decode failure. A binary field advertising five payload
bytes with only one remaining panics (out-of-bounds slice); a text value
too short to contain the parentheses panics in `new`; an unterminated
quoted segment silently yields a value instead of failing. -/
theorem record_decoder_malformed_behavior :
    decodeFieldRaw [0, 0, 0, 23, 0, 0, 0, 5, 170] = .panicked ∧
    PgRecordDecoder.newText [] = .panicked ∧
    PgRecordDecoder.newText ['('] = .panicked ∧
    decodeTextField ['"', 'a', 'b'] = .ok (some ['a'], []) := by
  refine ⟨by decide, by decide, by decide, by decide⟩

/-! ## Column-map construction lemmas -/

/-- The format list built by `describe` collects every field's declared
wire format, in order. -/
theorem buildMetaAux_formats (fields : List Field) (i : Nat)
    (columns : ColumnMap) (formats : List TypeFormat) :
    (buildMetaAux i fields columns formats).2
      = formats ++ fields.map Field.type_format := by
  induction fields generalizing i columns formats with
  | nil => simp [buildMetaAux]
  | cons f fs ih =>
    cases hf : f.name with
    | none => simp [buildMetaAux, hf, ih]
    | some name => simp [buildMetaAux, hf, ih]

/-- Every entry of the built column map points at a field of that index
whose name matches: only named fields are inserted. -/
theorem buildMetaAux_lookup_sound (fields : List Field) (i : Nat)
    (columns : ColumnMap) (formats : List TypeFormat) (n : String) (j : Nat)
    (h : alLookup (buildMetaAux i fields columns formats).1 n = some j) :
    alLookup columns n = some j ∨
      ∃ k f, fields.get? k = some f ∧ f.name = some n ∧ j = i + k := by
  induction fields generalizing i columns formats with
  | nil =>
    left
    simpa [buildMetaAux] using h
  | cons f fs ih =>
    cases hf : f.name with
    | none =>
      rw [buildMetaAux, hf] at h
      rcases ih (i + 1) columns (formats ++ [f.type_format]) h with h1 | ⟨k, g, hk, hg, hj⟩
      · left; exact h1
      · right
        exact ⟨k + 1, g, by simpa using hk, hg, by omega⟩
    | some name =>
      rw [buildMetaAux, hf] at h
      rcases ih (i + 1) (alInsert columns name i) (formats ++ [f.type_format]) h
        with h1 | ⟨k, g, hk, hg, hj⟩
      · rw [alLookup_alInsert] at h1
        by_cases hn : n = name
        · right
          refine ⟨0, f, by simp, by rw [hf, hn], ?_⟩
          rw [if_pos hn] at h1
          injection h1 with h1
          omega
        · left
          rwa [if_neg hn] at h1
      · right
        exact ⟨k + 1, g, by simpa using hk, hg, by omega⟩

/-- A name present in the accumulator stays present through the build. -/
theorem buildMetaAux_lookup_mono (fields : List Field) (i : Nat)
    (columns : ColumnMap) (formats : List TypeFormat) (n : String)
    (h : (alLookup columns n).isSome) :
    (alLookup (buildMetaAux i fields columns formats).1 n).isSome := by
  induction fields generalizing i columns formats with
  | nil => simpa [buildMetaAux] using h
  | cons f fs ih =>
    cases hf : f.name with
    | none =>
      rw [buildMetaAux, hf]
      exact ih (i + 1) columns (formats ++ [f.type_format]) h
    | some name =>
      rw [buildMetaAux, hf]
      apply ih
      rw [alLookup_alInsert]
      by_cases hn : n = name
      · simp [hn]
      · simpa [hn] using h

/-- Every named field ends up with an entry in the built column map. -/
theorem buildMetaAux_lookup_complete (fields : List Field) (i : Nat)
    (columns : ColumnMap) (formats : List TypeFormat) (k : Nat) (f : Field)
    (n : String) (hk : fields.get? k = some f) (hn : f.name = some n) :
    (alLookup (buildMetaAux i fields columns formats).1 n).isSome := by
  induction fields generalizing i columns formats k with
  | nil => simp at hk
  | cons g gs ih =>
    cases k with
    | zero =>
      simp only [List.get?_cons_zero, Option.some.injEq] at hk
      subst hk
      rw [buildMetaAux, hn]
      apply buildMetaAux_lookup_mono
      rw [alLookup_alInsert, if_pos rfl]
      rfl
    | succ k =>
      simp only [List.get?_cons_succ] at hk
      cases hg : g.name with
      | none =>
        rw [buildMetaAux, hg]
        exact ih (i + 1) columns (formats ++ [g.type_format]) k hk
      | some name =>
        rw [buildMetaAux, hg]
        exact ih (i + 1) (alInsert columns name i) (formats ++ [g.type_format]) k hk

/-- Claim C7: the describe sequence skips Parse-complete/Bind-complete
acknowledgements; on Row-description it builds the column map by
iterating fields in order, inserting a name-to-index entry for named
fields only (skipping unnamed ones) and pushing every field's wire
format onto the parallel format list; on No-data it yields an empty map
and empty format list; any other message is an error. -/
theorem describe_spec (conn : PgConnection) (rest : List Message) :
    ((conn.stream = Message.parseComplete :: rest →
        describe conn = describe { conn with stream := rest }) ∧
      (conn.stream = Message.bindComplete :: rest →
        describe conn = describe { conn with stream := rest })) ∧
    (∀ fields, conn.stream = Message.rowDescription fields :: rest →
      describe conn = (.ok (buildMeta fields), { conn with stream := rest }) ∧
      (buildMeta fields).2 = fields.map Field.type_format ∧
      (∀ n j, alLookup (buildMeta fields).1 n = some j →
        ∃ f, fields.get? j = some f ∧ f.name = some n) ∧
      (∀ k f n, fields.get? k = some f → f.name = some n →
        (alLookup (buildMeta fields).1 n).isSome)) ∧
    (conn.stream = Message.noData :: rest →
      describe conn = (.ok ([], []), { conn with stream := rest })) ∧
    (∀ tag, conn.stream = Message.other tag :: rest →
      describe conn
        = (.error (.protocolErr "next/describe: unexpected message"),
           { conn with stream := rest })) := by
  refine ⟨⟨?_, ?_⟩, ?_, ?_, ?_⟩
  · intro h
    simp [describe, describeLoop, h]
  · intro h
    simp [describe, describeLoop, h]
  · intro fields h
    refine ⟨by simp [describe, describeLoop, h], ?_, ?_, ?_⟩
    · exact buildMetaAux_formats fields 0 [] []
    · intro n j hj
      rcases buildMetaAux_lookup_sound fields 0 [] [] n j hj with h1 | ⟨k, f, hk, hf, hjk⟩
      · simp [alLookup] at h1
      · exact ⟨f, by simpa [hjk] using hk, hf⟩
    · intro k f n hk hn
      exact buildMetaAux_lookup_complete fields 0 [] [] k f n hk hn
  · intro h
    simp [describe, describeLoop, h]
  · intro tag h
    simp [describe, describeLoop, h]

/-! ## Cursor shape lemmas -/

/-- The tail of a first `next()` call after the executor has run: settle
metadata from the describe (or cache) result, then run the message loop.
On a describe error the taken cursor keeps its old metadata. -/
def nextAfterRun (cursor : PgCursor)
    (described : Except SqlxError (ColumnMap × List TypeFormat) × PgConnection) :
    NextOutcome × PgCursor × PgConnection :=
  match described with
  | (.error e, conn2) => (.err e, { cursor with query := none }, conn2)
  | (.ok (columns, formats), conn2) =>
    ((streamLoop ⟨none, columns, formats⟩ conn2.stream).1,
     (⟨none, columns, formats⟩ : PgCursor),
     { conn2 with stream := (streamLoop ⟨none, columns, formats⟩ conn2.stream).2 })

/-- Explicit form of `next` on a cursor whose pending query is consumed:
it re-enters the steady-state loop and never touches the executor. -/
theorem next_none_shape (runFn : RunFn) (cursor : PgCursor) (conn : PgConnection)
    (hq : cursor.query = none) :
    next runFn cursor conn
      = ((streamLoop cursor conn.stream).1, cursor,
         { conn with stream := (streamLoop cursor conn.stream).2 }) := by
  simp only [next, hq]

/-- Explicit form of `next` on a cursor holding a pending query: take the
query, run it, settle metadata via cache or describe, then loop. -/
theorem next_some_shape (runFn : RunFn) (cursor : PgCursor) (conn : PgConnection)
    (q : String) (args : Option PgArguments) (hq : cursor.query = some (q, args)) :
    next runFn cursor conn
      = (match runFn q args conn with
         | .error e => (.err e, { cursor with query := none }, conn)
         | .ok (statementOpt, conn1) =>
           nextAfterRun cursor
             (match statementOpt with
              | some statement => get_or_describe conn1 statement
              | none => describe conn1)) := by
  simp only [next, hq]
  rcases hrun : runFn q args conn with e | ⟨statementOpt, conn1⟩
  · rfl
  · cases statementOpt with
    | none =>
      rcases hd : describe conn1 with ⟨res, conn2⟩
      cases res with
      | error e => simp [nextAfterRun, hd]
      | ok cf =>
        obtain ⟨c, f⟩ := cf
        rcases hS : streamLoop ⟨none, c, f⟩ conn2.stream with ⟨o, r⟩
        simp [nextAfterRun, hd, hS]
    | some statement =>
      rcases hd : get_or_describe conn1 statement with ⟨res, conn2⟩
      cases res with
      | error e => simp [nextAfterRun, hd]
      | ok cf =>
        obtain ⟨c, f⟩ := cf
        rcases hS : streamLoop ⟨none, c, f⟩ conn2.stream with ⟨o, r⟩
        simp [nextAfterRun, hd, hS]

/-- After the executor has run, the taken cursor never regains a pending
query, whatever the describe outcome. -/
theorem nextAfterRun_query (cursor : PgCursor)
    (described : Except SqlxError (ColumnMap × List TypeFormat) × PgConnection) :
    (nextAfterRun cursor described).2.1.query = none := by
  rcases described with ⟨res, conn2⟩
  cases res with
  | error e => rfl
  | ok cf =>
    obtain ⟨c, f⟩ := cf
    rfl

/-! ## Claim theorems: the Postgres cursor -/

/-- Claim C1: the pending query is executed at most once. On a first
`next()` call (pending query present) the query is consumed — even when
the executor fails — and the executor's failure is surfaced; on every
later call (pending query absent) the result does not depend on the
executor at all, so the query is never re-executed. -/
theorem pending_query_executed_at_most_once (runFn runFn2 : RunFn)
    (cursor : PgCursor) (conn : PgConnection) :
    (∀ q args, cursor.query = some (q, args) →
      (next runFn cursor conn).2.1.query = none ∧
      ∀ e, runFn q args conn = .error e → (next runFn cursor conn).1 = .err e) ∧
    (cursor.query = none → next runFn cursor conn = next runFn2 cursor conn) := by
  constructor
  · intro q args hq
    rw [next_some_shape runFn cursor conn q args hq]
    constructor
    · rcases hrun : runFn q args conn with e | ⟨statementOpt, conn1⟩
      · rfl
      · exact nextAfterRun_query cursor _
    · intro e hrun
      simp [hrun]
  · intro hq
    rw [next_none_shape runFn cursor conn hq, next_none_shape runFn2 cursor conn hq]

/-- Claim C1 witness: a consumed query and a surfaced executor failure at
concrete inputs. -/
theorem pending_query_executed_at_most_once_witness :
    (next (fun _ _ conn => Except.ok (none, conn))
        ⟨some ("q", none), [], []⟩
        ⟨[Message.noData, Message.commandComplete], [], []⟩).2.1.query = none ∧
    (next (fun _ _ _ => Except.error SqlxError.ioEof)
        ⟨some ("q", none), [], []⟩ ⟨[], [], []⟩).1
      = NextOutcome.err SqlxError.ioEof := by
  constructor
  · exact ((pending_query_executed_at_most_once
      (fun _ _ conn => Except.ok (none, conn)) (fun _ _ conn => Except.ok (none, conn))
      ⟨some ("q", none), [], []⟩
      ⟨[Message.noData, Message.commandComplete], [], []⟩).1 "q" none rfl).1
  · exact ((pending_query_executed_at_most_once
      (fun _ _ _ => Except.error SqlxError.ioEof)
      (fun _ _ _ => Except.error SqlxError.ioEof)
      ⟨some ("q", none), [], []⟩ ⟨[], [], []⟩).1 "q" none rfl).2
      SqlxError.ioEof rfl

/-- Claim C3: the steady-state message loop. Parse-complete and
Bind-complete are skipped; Command-complete yields end-of-stream;
Data-row yields a row carrying the cursor's shared column map and format
list; any other tag yields a protocol error. -/
theorem steady_state_message_loop (runFn : RunFn) (cursor : PgCursor)
    (conn : PgConnection) (rest : List Message) (h : cursor.query = none) :
    (conn.stream = Message.parseComplete :: rest →
      next runFn cursor conn = next runFn cursor { conn with stream := rest }) ∧
    (conn.stream = Message.bindComplete :: rest →
      next runFn cursor conn = next runFn cursor { conn with stream := rest }) ∧
    (conn.stream = Message.commandComplete :: rest →
      next runFn cursor conn = (.done, cursor, { conn with stream := rest })) ∧
    (∀ data, conn.stream = Message.dataRow data :: rest →
      next runFn cursor conn
        = (.row ⟨cursor.columns, cursor.formats, data⟩, cursor,
           { conn with stream := rest })) ∧
    (∀ tag, conn.stream = Message.other tag :: rest →
      next runFn cursor conn
        = (.err (.protocolErr "next: unexpected message"), cursor,
           { conn with stream := rest })) := by
  refine ⟨?_, ?_, ?_, ?_, ?_⟩
  · intro hs
    rw [next_none_shape runFn cursor conn h,
      next_none_shape runFn cursor { conn with stream := rest } h, hs]
    rfl
  · intro hs
    rw [next_none_shape runFn cursor conn h,
      next_none_shape runFn cursor { conn with stream := rest } h, hs]
    rfl
  · intro hs
    rw [next_none_shape runFn cursor conn h, hs]
    rfl
  · intro data hs
    rw [next_none_shape runFn cursor conn h, hs]
    rfl
  · intro tag hs
    rw [next_none_shape runFn cursor conn h, hs]
    rfl

/-- Claim C3 witness: a Data-row at the head of the stream yields a row
sharing the cursor's metadata. -/
theorem steady_state_message_loop_witness :
    next (fun _ _ conn => Except.ok (none, conn))
        ⟨none, [("a", 0)], [TypeFormat.binary]⟩
        ⟨[Message.dataRow [some [1]]], [], []⟩
      = (NextOutcome.row ⟨[("a", 0)], [TypeFormat.binary], [some [1]]⟩,
         ⟨none, [("a", 0)], [TypeFormat.binary]⟩, ⟨[], [], []⟩) :=
  ((steady_state_message_loop (fun _ _ conn => Except.ok (none, conn))
      ⟨none, [("a", 0)], [TypeFormat.binary]⟩
      ⟨[Message.dataRow [some [1]]], [], []⟩ [] rfl).2.2.2.1) [some [1]] rfl

/-- Claim C6 counterexample: after `next()` has returned end-of-stream,
a further `next()` call does not return the same terminal outcome: it
reads another protocol message from the stream and here fails with a
protocol error (no terminal state is stored on the cursor). -/
theorem next_after_done_counterexample :
    (next (fun _ _ conn => Except.ok (none, conn))
        ⟨some ("SELECT 1", none), [], []⟩
        ⟨[Message.noData, Message.commandComplete, Message.other 90], [], []⟩).1
      = NextOutcome.done ∧
    (next (fun _ _ conn => Except.ok (none, conn))
        (next (fun _ _ conn => Except.ok (none, conn))
            ⟨some ("SELECT 1", none), [], []⟩
            ⟨[Message.noData, Message.commandComplete, Message.other 90],
             [], []⟩).2.1
        (next (fun _ _ conn => Except.ok (none, conn))
            ⟨some ("SELECT 1", none), [], []⟩
            ⟨[Message.noData, Message.commandComplete, Message.other 90],
             [], []⟩).2.2).1
      = NextOutcome.err (.protocolErr "next: unexpected message") ∧
    (next (fun _ _ conn => Except.ok (none, conn))
        (next (fun _ _ conn => Except.ok (none, conn))
            ⟨some ("SELECT 1", none), [], []⟩
            ⟨[Message.noData, Message.commandComplete, Message.other 90],
             [], []⟩).2.1
        (next (fun _ _ conn => Except.ok (none, conn))
            ⟨some ("SELECT 1", none), [], []⟩
            ⟨[Message.noData, Message.commandComplete, Message.other 90],
             [], []⟩).2.2).2.2.stream
      = [] := by
  refine ⟨rfl, rfl, rfl⟩

/-- Claim C6 (amended): after end-of-stream or a failure the pending
query stays consumed, so a later `next()` never re-executes it; but the
call is not an idempotent terminal state — it runs the steady-state
message loop again, consuming further protocol messages from the
connection, so its outcome depends on what the backend sends next. -/
theorem next_after_terminal_no_reexecution (runFn : RunFn) (cursor : PgCursor)
    (conn : PgConnection) (h : cursor.query = none) :
    (next runFn cursor conn).2.1 = cursor ∧
    (next runFn cursor conn).1 = (streamLoop cursor conn.stream).1 ∧
    (next runFn cursor conn).2.2.stream = (streamLoop cursor conn.stream).2 := by
  rw [next_none_shape runFn cursor conn h]
  exact ⟨rfl, rfl, rfl⟩

/-- Claim C6 (amended) witness. -/
theorem next_after_terminal_no_reexecution_witness :
    (next (fun _ _ conn => Except.ok (none, conn))
        ⟨none, [], []⟩ ⟨[Message.commandComplete], [], []⟩).1
      = NextOutcome.done := by
  have h := next_after_terminal_no_reexecution
    (fun _ _ conn => Except.ok (none, conn))
    ⟨none, [], []⟩ ⟨[Message.commandComplete], [], []⟩ rfl
  rw [h.2.1]
  rfl

/-- Claim C2: executing the same prepared statement twice on one
connection performs the describe sequence exactly once. A successful
`get_or_describe` leaves the pair in both caches under the statement
identifier, and running it again on the resulting connection returns the
identical pair and leaves the connection untouched (in particular it
consumes no further protocol messages). -/
theorem prepared_statement_described_once (conn conn' : PgConnection)
    (statement : StatementId) (columns : ColumnMap) (formats : List TypeFormat)
    (h : get_or_describe conn statement = (.ok (columns, formats), conn')) :
    alLookup conn'.cache_statement_columns statement = some columns ∧
    alLookup conn'.cache_statement_formats statement = some formats ∧
    get_or_describe conn' statement = (.ok (columns, formats), conn') := by
  have key : alLookup conn'.cache_statement_columns statement = some columns ∧
      alLookup conn'.cache_statement_formats statement = some formats := by
    by_cases hc : (alLookup conn.cache_statement_columns statement).isNone
        || (alLookup conn.cache_statement_formats statement).isNone
    · rw [get_or_describe, if_pos hc] at h
      rcases hd : describe conn with ⟨res, conn1⟩
      rw [hd] at h
      cases res with
      | error e => simp at h
      | ok cf =>
        obtain ⟨c0, f0⟩ := cf
        have hl1 : alLookup (alInsert conn1.cache_statement_columns statement c0)
            statement = some c0 := by
          rw [alLookup_alInsert, if_pos rfl]
        have hl2 : alLookup (alInsert conn1.cache_statement_formats statement f0)
            statement = some f0 := by
          rw [alLookup_alInsert, if_pos rfl]
        simp only [readCache, hl1, hl2] at h
        simp only [Prod.mk.injEq, Except.ok.injEq] at h
        obtain ⟨⟨hc0, hf0⟩, hconn⟩ := h
        subst hc0
        subst hf0
        subst hconn
        exact ⟨hl1, hl2⟩
    · rw [get_or_describe, if_neg hc] at h
      simp only [Bool.or_eq_true, Option.isNone_iff_eq_none, not_or] at hc
      obtain ⟨hc1, hc2⟩ := hc
      rcases ho1 : alLookup conn.cache_statement_columns statement with _ | c0
      · exact absurd ho1 hc1
      rcases ho2 : alLookup conn.cache_statement_formats statement with _ | f0
      · exact absurd ho2 hc2
      simp only [readCache, ho1, ho2] at h
      simp only [Prod.mk.injEq, Except.ok.injEq] at h
      obtain ⟨⟨hc0, hf0⟩, hconn⟩ := h
      subst hc0
      subst hf0
      subst hconn
      exact ⟨ho1, ho2⟩
  refine ⟨key.1, key.2, ?_⟩
  rw [get_or_describe, if_neg (by simp [key.1, key.2])]
  simp only [readCache, key.1, key.2]

/-- Claim C2 witness: a cache miss inserts the described pair; the second
call returns the same pair and does not advance the connection. -/
theorem prepared_statement_described_once_witness :
    get_or_describe
        ⟨[], [(5, [("x", 0)])], [(5, [TypeFormat.binary])]⟩ 5
      = (Except.ok ([("x", 0)], [TypeFormat.binary]),
         ⟨[], [(5, [("x", 0)])], [(5, [TypeFormat.binary])]⟩) :=
  (prepared_statement_described_once
      ⟨[Message.rowDescription [⟨some "x", TypeFormat.binary⟩]], [], []⟩
      ⟨[], [(5, [("x", 0)])], [(5, [TypeFormat.binary])]⟩
      5 [("x", 0)] [TypeFormat.binary] rfl).2.2

/-- Claim C7 witness: a describe over a Parse-complete acknowledgement
and a two-field row description (one unnamed field) builds the one-entry
column map and the two-entry format list. -/
theorem describe_spec_witness :
    describe ⟨[Message.parseComplete, Message.rowDescription
        [⟨some "a", TypeFormat.text⟩, ⟨none, TypeFormat.binary⟩]], [], []⟩
      = (Except.ok ([("a", 0)], [TypeFormat.text, TypeFormat.binary]),
         ⟨[], [], []⟩) := by
  have hskip := ((describe_spec
      ⟨[Message.parseComplete, Message.rowDescription
          [⟨some "a", TypeFormat.text⟩, ⟨none, TypeFormat.binary⟩]], [], []⟩
      [Message.rowDescription
          [⟨some "a", TypeFormat.text⟩, ⟨none, TypeFormat.binary⟩]]).1.1) rfl
  have hrow := ((describe_spec
      ⟨[Message.rowDescription
          [⟨some "a", TypeFormat.text⟩, ⟨none, TypeFormat.binary⟩]], [], []⟩
      []).2.1 [⟨some "a", TypeFormat.text⟩, ⟨none, TypeFormat.binary⟩] rfl).1
  rw [hskip, hrow]
  rfl

/-- `describe` touches only the stream component of the connection: its
outcome and the stream it leaves behind are independent of the two
statement caches, and the caches pass through unchanged. -/
theorem describe_connection_parts (stream : List Message)
    (cc cc' : List (StatementId × ColumnMap))
    (cf cf' : List (StatementId × List TypeFormat)) :
    (describe ⟨stream, cc, cf⟩).1 = (describe ⟨stream, cc', cf'⟩).1 ∧
    (describe ⟨stream, cc, cf⟩).2.stream = (describe ⟨stream, cc', cf'⟩).2.stream ∧
    (describe ⟨stream, cc, cf⟩).2.cache_statement_columns = cc ∧
    (describe ⟨stream, cc, cf⟩).2.cache_statement_formats = cf := by
  rcases hd : describeLoop stream with ⟨res, rest⟩
  cases res with
  | error e => simp [describe, hd]
  | ok d => cases d <;> simp [describe, hd]

/-- Claim C8: when the executor yields no statement identifier (the
unprepared/simple path), the cursor performs the describe sequence on
that execution and never reads from or writes to the statement cache:
its outcome and resulting cursor are unchanged under arbitrary cache
contents, and the caches pass through exactly as the executor left them. -/
theorem unprepared_path_describes_every_time
    (runFn runFn2 : RunFn) (cursor : PgCursor) (conn : PgConnection)
    (stream1 : List Message)
    (cc1 cc2 : List (StatementId × ColumnMap))
    (cf1 cf2 : List (StatementId × List TypeFormat))
    (q : String) (args : Option PgArguments)
    (h0 : cursor.query = some (q, args))
    (h1 : runFn q args conn = .ok (none, ⟨stream1, cc1, cf1⟩))
    (h2 : runFn2 q args conn = .ok (none, ⟨stream1, cc2, cf2⟩)) :
    next runFn cursor conn = nextAfterRun cursor (describe ⟨stream1, cc1, cf1⟩) ∧
    (next runFn cursor conn).1 = (next runFn2 cursor conn).1 ∧
    (next runFn cursor conn).2.1 = (next runFn2 cursor conn).2.1 ∧
    (next runFn cursor conn).2.2.cache_statement_columns = cc1 ∧
    (next runFn cursor conn).2.2.cache_statement_formats = cf1 := by
  have hs := next_some_shape runFn cursor conn q args h0
  have hs2 := next_some_shape runFn2 cursor conn q args h0
  rw [h1] at hs
  rw [h2] at hs2
  simp only [] at hs hs2
  obtain ⟨hpr, hpstream, hpc, hpf⟩ :=
    describe_connection_parts stream1 cc1 cc2 cf1 cf2
  refine ⟨hs, ?_, ?_, ?_, ?_⟩
  · rw [hs, hs2]
    rcases hd1 : describe ⟨stream1, cc1, cf1⟩ with ⟨res1, conn21⟩
    rcases hd2 : describe ⟨stream1, cc2, cf2⟩ with ⟨res2, conn22⟩
    rw [hd1, hd2] at hpr hpstream
    simp only [] at hpr hpstream
    subst hpr
    cases res1 with
    | error e => rfl
    | ok cf =>
      obtain ⟨c, f⟩ := cf
      simp [nextAfterRun, hpstream]
  · rw [hs, hs2]
    rcases hd1 : describe ⟨stream1, cc1, cf1⟩ with ⟨res1, conn21⟩
    rcases hd2 : describe ⟨stream1, cc2, cf2⟩ with ⟨res2, conn22⟩
    rw [hd1, hd2] at hpr
    simp only [] at hpr
    subst hpr
    cases res1 with
    | error e => rfl
    | ok cf =>
      obtain ⟨c, f⟩ := cf
      rfl
  · rw [hs]
    rcases hd1 : describe ⟨stream1, cc1, cf1⟩ with ⟨res1, conn21⟩
    rw [hd1] at hpc
    cases res1 with
    | error e => simpa [nextAfterRun] using hpc
    | ok cf =>
      obtain ⟨c, f⟩ := cf
      simpa [nextAfterRun] using hpc
  · rw [hs]
    rcases hd1 : describe ⟨stream1, cc1, cf1⟩ with ⟨res1, conn21⟩
    rw [hd1] at hpf
    cases res1 with
    | error e => simpa [nextAfterRun] using hpf
    | ok cf =>
      obtain ⟨c, f⟩ := cf
      simpa [nextAfterRun] using hpf

/-- Claim C8 witness: on the simple path the outcome is identical whether
the executor leaves the caches empty or pre-populated, and the caches
come through unchanged. -/
theorem unprepared_path_describes_every_time_witness :
    (next (fun _ _ _ => Except.ok (none,
        ⟨[Message.noData, Message.commandComplete], [], []⟩))
      ⟨some ("q", none), [], []⟩ ⟨[], [], []⟩).1
      = (next (fun _ _ _ => Except.ok (none,
          ⟨[Message.noData, Message.commandComplete],
           [(1, [("z", 0)])], [(1, [TypeFormat.text])]⟩))
        ⟨some ("q", none), [], []⟩ ⟨[], [], []⟩).1 ∧
    (next (fun _ _ _ => Except.ok (none,
        ⟨[Message.noData, Message.commandComplete], [], []⟩))
      ⟨some ("q", none), [], []⟩ ⟨[], [], []⟩).2.2.cache_statement_columns
      = [] := by
  have h := unprepared_path_describes_every_time
    (fun _ _ _ => Except.ok (none,
      ⟨[Message.noData, Message.commandComplete], [], []⟩))
    (fun _ _ _ => Except.ok (none,
      ⟨[Message.noData, Message.commandComplete],
       [(1, [("z", 0)])], [(1, [TypeFormat.text])]⟩))
    ⟨some ("q", none), [], []⟩ ⟨[], [], []⟩
    [Message.noData, Message.commandComplete]
    [] [(1, [("z", 0)])] [] [(1, [TypeFormat.text])]
    "q" none rfl rfl rfl
  exact ⟨h.2.1, h.2.2.2.1⟩

/-- Claim C10: MySQL `get_raw` on a resolved, in-range column: a NULL
column is an absent success in both modes; a present column is returned
unvalidated as `Binary` in binary mode, while in text mode bytes that are
not valid UTF-8 are a decode error. -/
theorem mysql_get_raw_modes (r : MySqlRow) (i : Nat) (buf : List Nat)
    (hi : i < r.row.length) :
    (r.binary = false → rowGet r.row i = some buf → validUtf8 buf = false →
      r.get_raw (.pos i) = .error .invalidUtf8) ∧
    (r.binary = true → rowGet r.row i = some buf →
      r.get_raw (.pos i) = .ok (some (.binary buf))) ∧
    (rowGet r.row i = none → r.get_raw (.pos i) = .ok none) := by
  have hres : r.resolve (.pos i) = .ok i := by
    simp [MySqlRow.resolve, hi]
  refine ⟨?_, ?_, ?_⟩
  · intro hb hg hu
    simp [MySqlRow.get_raw, hres, hg, hb, hu]
  · intro hb hg
    simp [MySqlRow.get_raw, hres, hg, hb]
  · intro hg
    simp [MySqlRow.get_raw, hres, hg]

/-- Claim C10 witness: the byte `0xFF` is rejected in text mode, passed
through in binary mode, and a NULL column is an absent success. -/
theorem mysql_get_raw_modes_witness :
    MySqlRow.get_raw ⟨[some [255]], [], false⟩ (.pos 0)
      = .error .invalidUtf8 ∧
    MySqlRow.get_raw ⟨[some [255]], [], true⟩ (.pos 0)
      = .ok (some (.binary [255])) ∧
    MySqlRow.get_raw ⟨[none], [], false⟩ (.pos 0) = .ok none := by
  refine ⟨?_, ?_, ?_⟩
  · exact (mysql_get_raw_modes ⟨[some [255]], [], false⟩ 0 [255]
      (by decide)).1 rfl rfl (by decide)
  · exact (mysql_get_raw_modes ⟨[some [255]], [], true⟩ 0 [255]
      (by decide)).2.1 rfl rfl
  · exact (mysql_get_raw_modes ⟨[none], [], false⟩ 0 []
      (by decide)).2.2 rfl

end Sqlx
